import Mathlib

/-!
Verification of the Accept-Encoding negotiation core of `zstd_asgi`
(`zstd_asgi/headers.py`): the parser `parse_part` and the q-factor
respecting negotiator `get_preferred_encoding`.

Header strings are embedded as `List Char` (obtained from Lean `String`
literals via `String.data`).  Python `float` values carried by q-factors
are embedded as `PyFloat`: finite values as exact decimals (an integer
numerator and a power-of-ten denominator) and the special values `inf`,
`-inf` and `nan` explicitly, with Python's IEEE comparison semantics
(`nan` compares false with everything).  `float(...)` parsing covers
signs, `nan`/`inf`/`infinity` spellings, decimal numerals with optional
fraction, exponents, and PEP 515 digit underscores.  Outside the model:
non-ASCII digits and whitespace, and IEEE double rounding — parsed
decimals are kept exact, so overflow to infinity and underflow to zero
at extreme exponents are not reproduced.  The sort comparator treats a
NaN q-factor as the key `0.0`; CPython's sort is comparator-inconsistent
on NaN keys and its resulting order on NaN-bearing token lists is
outside the model (no claim constrains it).  The `lru_cache` decorator
is pure memoization and is not modelled.
-/

/-- Embedding of the Python `float` values produced by q-factor parsing:
finite values are kept as exact decimals `num / 10 ^ exp`; the special
values `inf`, `-inf` and `nan` are represented explicitly. -/
inductive PyFloat where
  | finite (num : Int) (exp : Nat)
  | inf
  | neginf
  | nan
deriving DecidableEq, Repr

/-- Python `<` on floats: `nan` compares false with everything (itself
included); finite values compare by cross multiplication. -/
def qlt : PyFloat → PyFloat → Bool
  | .nan, _ => false
  | _, .nan => false
  | .finite a k, .finite b j => decide (a * (10 : Int) ^ j < b * (10 : Int) ^ k)
  | .finite _ _, .inf => true
  | .finite _ _, .neginf => false
  | .inf, _ => false
  | .neginf, .neginf => false
  | .neginf, _ => true

/-- Python `<=` on floats: `nan` compares false with everything. -/
def qle : PyFloat → PyFloat → Bool
  | .nan, _ => false
  | _, .nan => false
  | .finite a k, .finite b j => decide (a * (10 : Int) ^ j ≤ b * (10 : Int) ^ k)
  | .finite _ _, .inf => true
  | .finite _ _, .neginf => false
  | .inf, .inf => true
  | .inf, _ => false
  | .neginf, _ => true

/-- Python `==` on floats: `nan` is equal to nothing, itself included. -/
def qeq : PyFloat → PyFloat → Bool
  | .nan, _ => false
  | _, .nan => false
  | .finite a k, .finite b j => decide (a * (10 : Int) ^ j = b * (10 : Int) ^ k)
  | .inf, .inf => true
  | .neginf, .neginf => true
  | _, _ => false

/-- Numerator of the sort key of a `PyFloat` (specials collapse to `0`,
see the note on `qltKey`). -/
def sortNum : PyFloat → Int
  | .finite n _ => n
  | _ => 0

/-- Denominator exponent of the sort key of a `PyFloat`. -/
def sortExp : PyFloat → Nat
  | .finite _ k => k
  | _ => 0

/-- The rational value denoted by a `PyFloat` (`0` for the specials,
whose magnitude no claim depends on). -/
def PyFloat.toRat : PyFloat → ℚ
  | .finite n k => (n : ℚ) / (10 : ℚ) ^ k
  | _ => 0

/-- Strict sort-key comparison used by the model's sort.  On the finite
values it coincides with Python float comparison; a `nan` key (which
CPython's comparator-inconsistent sort handles ad hoc) participates as
`0.0`.  Tokens never carry `inf`/`-inf` (they are clamped or dropped by
`parse_part`), and no claim constrains the relative order of
`nan`-carrying tokens. -/
def qltKey (a b : PyFloat) : Bool :=
  decide (sortNum a * (10 : Int) ^ sortExp b < sortNum b * (10 : Int) ^ sortExp a)

/-- Sort-key equality, see `qltKey`. -/
def qeqKey (a b : PyFloat) : Bool :=
  decide (sortNum a * (10 : Int) ^ sortExp b = sortNum b * (10 : Int) ^ sortExp a)

/-- The float `0.0`. -/
def qZero : PyFloat := .finite 0 0

/-- The float `1.0`. -/
def qOne : PyFloat := .finite 1 0

/-- Python whitespace characters stripped by `str.strip()` / `float()`. -/
def pyIsSpace (c : Char) : Bool :=
  c = ' ' ∨ c = '\t' ∨ c = '\n' ∨ c = '\r' ∨ c = '\x0b' ∨ c = '\x0c'

/-- Embedding of Python `str.strip()`: drop whitespace at both ends. -/
def pyStrip (l : List Char) : List Char :=
  ((l.dropWhile pyIsSpace).reverse.dropWhile pyIsSpace).reverse

/-- Embedding of Python `str.split(sep)` for a one-character separator:
`splitOnChar c l` always returns at least one (possibly empty) piece. -/
def splitOnChar (c : Char) : List Char → List (List Char)
  | [] => [[]]
  | x :: xs =>
    let r := splitOnChar c xs
    if x = c then [] :: r
    else
      match r with
      | [] => [[x]]
      | y :: ys => (x :: y) :: ys

/-- Embedding of Python `str.replace(" ", "")`: remove every space. -/
def removeSpaces (l : List Char) : List Char := l.filter (fun c => ¬ (c = ' '))

/-- Embedding of the Python substring test `pat in s`. -/
def containsSub (pat : List Char) : List Char → Bool
  | [] => pat.isEmpty
  | c :: cs => pat.isPrefixOf (c :: cs) || containsSub pat cs

/-- Numeric value of a list of decimal digit characters. -/
def digitsToNat (l : List Char) : Nat :=
  l.foldl (fun n c => 10 * n + (c.toNat - 48)) 0

/-- Continuation of a PEP 515 digit part: digits with single
underscores allowed only between digits. -/
def isDigitPartTail : List Char → Bool
  | [] => true
  | ['_'] => false
  | '_' :: c :: rest => c.isDigit && isDigitPartTail rest
  | c :: rest => c.isDigit && isDigitPartTail rest

/-- A PEP 515 digit part: at least one digit, underscores only between
digits (`"1_0"` is valid, `"_1"`, `"1_"`, `"1__0"` are not). -/
def isDigitPart (l : List Char) : Bool :=
  match l with
  | [] => false
  | c :: rest => c.isDigit && isDigitPartTail rest

/-- Numeric value of a digit part, underscores dropped. -/
def digitPartVal (l : List Char) : Nat :=
  digitsToNat (l.filter (fun c => c != '_'))

/-- Number of digits of a digit part, underscores dropped. -/
def digitPartLen (l : List Char) : Nat :=
  (l.filter (fun c => c != '_')).length

/-- The mantissa of a Python float literal (digits with at most one
decimal point, at least one digit overall): its value as a scaled
integer together with the fractional scale. -/
def parseMantissa? (m : List Char) : Option (Nat × Nat) :=
  match splitOnChar '.' m with
  | [i] => if isDigitPart i then some (digitPartVal i, 0) else none
  | [i, f] =>
    if (i.isEmpty || isDigitPart i) && (f.isEmpty || isDigitPart f)
        && !(i.isEmpty && f.isEmpty) then
      some (digitPartVal i * 10 ^ digitPartLen f + digitPartVal f, digitPartLen f)
    else none
  | _ => none

/-- The exponent of a Python float literal: an optional sign followed by
a digit part. -/
def parseExp? (e : List Char) : Option Int :=
  let sgn : Int := if e.headD ' ' = '-' then -1 else 1
  let rest := if e.headD ' ' = '-' ∨ e.headD ' ' = '+' then e.tail else e
  if isDigitPart rest then some (sgn * digitPartVal rest) else none

/-- The finite float `s * v / 10 ^ k * 10 ^ e` as an exact decimal. -/
def mkFiniteFloat (s : Int) (v : Nat) (k : Nat) (e : Int) : PyFloat :=
  let d : Int := e - (k : Int)
  if 0 ≤ d then .finite (s * v * 10 ^ d.toNat) 0
  else .finite (s * v) (-d).toNat

/-- Embedding of Python `float(s)`: surrounding whitespace, an optional
sign, then `nan` / `inf` / `infinity` (case-insensitive) or a decimal
numeral with optional fraction, PEP 515 underscores and optional
exponent.  Returns `none` exactly where Python `float` raises
`ValueError`, except that non-ASCII digits and whitespace are outside
the model, and parsed decimals are kept exact: IEEE rounding, overflow
to infinity and underflow to zero are not modelled. -/
def parseFloat? (s : List Char) : Option PyFloat :=
  let t := pyStrip s
  let sgn : Int := if t.headD ' ' = '-' then -1 else 1
  let rest := if t.headD ' ' = '-' ∨ t.headD ' ' = '+' then t.tail else t
  let lowered := rest.map Char.toLower
  if lowered = "nan".data then some .nan
  else if lowered = "inf".data ∨ lowered = "infinity".data then
    some (if sgn = 1 then .inf else .neginf)
  else
    match splitOnChar 'e' lowered with
    | [m] => (parseMantissa? m).map (fun vk => mkFiniteFloat sgn vk.1 vk.2 0)
    | [m, e] =>
      match parseMantissa? m, parseExp? e with
      | some vk, some ex => some (mkFiniteFloat sgn vk.1 vk.2 ex)
      | _, _ => none
    | _ => none

/-- Embedding of `CODING_PRIORITIES` from `zstd_asgi/headers.py`:
the server's fixed preference ranks, lower is more preferred. -/
def CODING_PRIORITIES : List (List Char × Nat) :=
  [("zstd".data, 0), ("gzip".data, 1), ("identity".data, 998), ("*".data, 999)]

/-- Priority lookup `CODING_PRIORITIES[name]` (`none` when the coding is
not recognized). -/
def lookupPriority (name : List Char) : Option Nat :=
  (CODING_PRIORITIES.find? (fun kv => kv.1 == name)).map (fun kv => kv.2)

/-- The stripped remainder of the first `;`-parameter that starts with
`q=` (after stripping), mirroring the parameter loop of `parse_part`. -/
def firstQParam? : List (List Char) → Option (List Char)
  | [] => none
  | p :: rest =>
    let p := pyStrip p
    if "q=".data.isPrefixOf p then some (p.drop 2) else firstQParam? rest

/-- Embedding of the q-factor loop of `parse_part`: default `1.0` when no
`q=` parameter is present; on the first `q=` parameter, its parsed value,
or `0.0` when malformed (then the loop breaks). -/
def findQ : List (List Char) → PyFloat
  | [] => qOne
  | p :: rest =>
    let p := pyStrip p
    if "q=".data.isPrefixOf p then
      match parseFloat? (p.drop 2) with
      | some v => v
      | none => qZero
    else findQ rest

/-- The coding name of a header part: first `;`-segment, stripped. -/
def codingNameOf (part : List Char) : List Char :=
  pyStrip ((splitOnChar ';' (pyStrip part)).headD [])

/-- The `;`-parameters of a header part (everything after the name). -/
def paramsOf (part : List Char) : List (List Char) :=
  (splitOnChar ';' (pyStrip part)).tail

/-- Embedding of `parse_part` from `zstd_asgi/headers.py`: parse one
comma-separated part of the Accept-Encoding header into
`(q-factor, priority, coding name)`, or `none` when the part is empty,
names an unrecognized coding, or carries a q-factor `≤ 0`. -/
def parse_part (part : List Char) : Option (PyFloat × Nat × List Char) :=
  let part := pyStrip part
  if part.isEmpty then none
  else
    let components := splitOnChar ';' part
    let coding_name := pyStrip (components.headD [])
    match lookupPriority coding_name with
    | none => none
    | some priority =>
      let q_val := findQ components.tail
      if qle q_val qZero then none
      else
        let q_val := if qlt qOne q_val then qOne else q_val
        some (q_val, priority, coding_name)

/-- The three values `get_preferred_encoding` can return
(`SupportedEncoding` in `zstd_asgi/headers.py`). -/
inductive SupportedEncoding
  | zstd
  | gzip
  | identity
deriving DecidableEq, Repr

/-- Sort key order of `options.sort(key=lambda p: (-p[0], p[1]))`:
descending q-factor, ties broken by ascending priority (via the total
sort-key comparisons, see `qltKey`). -/
def tokLe (a b : PyFloat × Nat × List Char) : Bool :=
  qltKey b.1 a.1 || (qeqKey a.1 b.1 && decide (a.2.1 ≤ b.2.1))

/-- `tokLe` as a relation, for sorting and sortedness statements. -/
def tokRel (a b : PyFloat × Nat × List Char) : Prop := tokLe a b = true

instance : DecidableRel tokRel := fun _a _b => inferInstanceAs (Decidable (_ = _))

/-- The parsed options of a header: each comma-separated part through
`parse_part`, keeping the successfully parsed ones (step 1 of
`get_preferred_encoding`). -/
def headerOptions (chars : List Char) : List (PyFloat × Nat × List Char) :=
  (splitOnChar ',' chars).filterMap parse_part

/-- Step 2 of `get_preferred_encoding`: sort the options by descending
q-factor, ties by ascending priority. -/
def sortTokens (l : List (PyFloat × Nat × List Char)) :
    List (PyFloat × Nat × List Char) :=
  List.insertionSort tokRel l

/-- Step 3 of `get_preferred_encoding`: walk the sorted options and pick
the first supported encoding; the wildcard re-inspects the raw header
(spaces removed) for the literal substrings `zstd;q=0` / `gzip;q=0`. -/
def scanOptions (chars : List Char) (gzip_fallback : Bool) :
    List (PyFloat × Nat × List Char) → SupportedEncoding
  | [] => .identity
  | (_, _, name) :: rest =>
    if name = "zstd".data then .zstd
    else if name = "gzip".data then
      if gzip_fallback then .gzip else scanOptions chars gzip_fallback rest
    else if name = "identity".data then .identity
    else if name = "*".data then
      let stripped := removeSpaces chars
      if containsSub "zstd;q=0".data stripped = false then .zstd
      else if gzip_fallback = true ∧ containsSub "gzip;q=0".data stripped = false
        then .gzip
      else .identity
    else scanOptions chars gzip_fallback rest

/-- Embedding of `get_preferred_encoding` from `zstd_asgi/headers.py`
(the q-factor respecting negotiator): parse, sort, scan. -/
def get_preferred_encoding (accept_encoding : String) (gzip_fallback : Bool) :
    SupportedEncoding :=
  scanOptions accept_encoding.data gzip_fallback
    (sortTokens (headerOptions accept_encoding.data))

/-- A header part that names `name` and carries q-factor `0` (an
explicitly forbidden coding, per the parsing rules of `parse_part`). -/
def partForbids (name : String) (part : List Char) : Bool :=
  codingNameOf part == name.data && qeq (findQ (paramsOf part)) qZero

/-- The header contains some part that explicitly forbids `name`. -/
def headerForbids (name : String) (h : String) : Bool :=
  (splitOnChar ',' h.data).any (partForbids name)

/-! ### Bridge lemmas between the decidable comparisons and ℚ values -/

lemma tenPow_pos (k : Nat) : (0 : ℚ) < (10 : ℚ) ^ k := by positivity

lemma toRat_sortKey (q : PyFloat) :
    q.toRat = (sortNum q : ℚ) / (10 : ℚ) ^ sortExp q := by
  cases q <;> simp [PyFloat.toRat, sortNum, sortExp]

lemma qltKey_iff (a b : PyFloat) : qltKey a b = true ↔ a.toRat < b.toRat := by
  rw [toRat_sortKey, toRat_sortKey,
    div_lt_div_iff₀ (tenPow_pos (sortExp a)) (tenPow_pos (sortExp b))]
  simp only [qltKey, decide_eq_true_eq]
  constructor
  · intro h; exact_mod_cast h
  · intro h; exact_mod_cast h

lemma qeqKey_iff (a b : PyFloat) : qeqKey a b = true ↔ a.toRat = b.toRat := by
  rw [toRat_sortKey, toRat_sortKey,
    div_eq_div_iff (ne_of_gt (tenPow_pos (sortExp a)))
      (ne_of_gt (tenPow_pos (sortExp b)))]
  simp only [qeqKey, decide_eq_true_eq]
  constructor
  · intro h; exact_mod_cast h
  · intro h; exact_mod_cast h

lemma qlt_finite_iff (a b : Int) (k j : Nat) :
    qlt (.finite a k) (.finite b j) = true ↔
      (PyFloat.finite a k).toRat < (PyFloat.finite b j).toRat := by
  rw [PyFloat.toRat, PyFloat.toRat, div_lt_div_iff₀ (tenPow_pos k) (tenPow_pos j)]
  simp only [qlt, decide_eq_true_eq]
  constructor
  · intro h; exact_mod_cast h
  · intro h; exact_mod_cast h

lemma qle_finite_iff (a b : Int) (k j : Nat) :
    qle (.finite a k) (.finite b j) = true ↔
      (PyFloat.finite a k).toRat ≤ (PyFloat.finite b j).toRat := by
  rw [PyFloat.toRat, PyFloat.toRat, div_le_div_iff₀ (tenPow_pos k) (tenPow_pos j)]
  simp only [qle, decide_eq_true_eq]
  constructor
  · intro h; exact_mod_cast h
  · intro h; exact_mod_cast h

lemma qZero_toRat : qZero.toRat = 0 := by norm_num [qZero, PyFloat.toRat]

lemma qOne_toRat : qOne.toRat = 1 := by norm_num [qOne, PyFloat.toRat]

/-! ### Parsing lemmas -/

lemma parse_part_q_cases (part : List Char) (q : PyFloat) (p : Nat)
    (n : List Char) (hp : parse_part part = some (q, p, n)) :
    q = PyFloat.nan ∨
      ((∃ m k, q = PyFloat.finite m k) ∧ 0 < q.toRat ∧ q.toRat ≤ 1) := by
  simp only [parse_part] at hp
  split at hp
  · exact absurd hp (by simp)
  · split at hp
    · exact absurd hp (by simp)
    · split at hp
      · exact absurd hp (by simp)
      · rename_i hq0
        split at hp
        · simp only [Option.some.injEq, Prod.mk.injEq] at hp
          obtain ⟨hq, -, -⟩ := hp
          rw [← hq]
          refine Or.inr ⟨⟨1, 0, rfl⟩, ?_⟩
          rw [qOne_toRat]
          norm_num
        · rename_i hq1
          simp only [Option.some.injEq, Prod.mk.injEq] at hp
          obtain ⟨hq, -, -⟩ := hp
          rw [← hq]
          cases hfq : findQ ((splitOnChar ';' (pyStrip part)).tail) with
          | finite m k =>
            rw [hfq] at hq0 hq1
            unfold qZero at hq0
            rw [qle_finite_iff] at hq0
            unfold qOne at hq1
            rw [qlt_finite_iff] at hq1
            have h0 : (PyFloat.finite 0 0).toRat = 0 := by
              norm_num [PyFloat.toRat]
            have h1 : (PyFloat.finite 1 0).toRat = 1 := by
              norm_num [PyFloat.toRat]
            rw [h0, not_le] at hq0
            rw [h1, not_lt] at hq1
            exact Or.inr ⟨⟨m, k, rfl⟩, hq0, hq1⟩
          | inf =>
            rw [hfq] at hq1
            exact absurd rfl hq1
          | neginf =>
            rw [hfq] at hq0
            exact absurd rfl hq0
          | nan => exact Or.inl rfl

lemma parse_part_q_guard (part : List Char) (q : PyFloat) (p : Nat)
    (n : List Char) (hp : parse_part part = some (q, p, n)) :
    qle q qZero = false := by
  simp only [parse_part] at hp
  split at hp
  · exact absurd hp (by simp)
  · split at hp
    · exact absurd hp (by simp)
    · split at hp
      · exact absurd hp (by simp)
      · rename_i hq0
        split at hp
        · simp only [Option.some.injEq, Prod.mk.injEq] at hp
          obtain ⟨hq, -, -⟩ := hp
          rw [← hq]
          rfl
        · simp only [Option.some.injEq, Prod.mk.injEq] at hp
          obtain ⟨hq, -, -⟩ := hp
          rw [← hq]
          simpa using hq0

lemma findQ_of_no_qparam (ps : List (List Char))
    (h : firstQParam? ps = none) : findQ ps = qOne := by
  induction ps with
  | nil => rfl
  | cons p rest ih =>
    simp only [firstQParam?] at h
    simp only [findQ]
    split at h
    · exact absurd h (by simp)
    · rename_i hpre
      rw [if_neg hpre]
      exact ih h

lemma findQ_of_qparam (ps : List (List Char)) (s : List Char)
    (h : firstQParam? ps = some s) :
    findQ ps = ((parseFloat? s).getD qZero) := by
  induction ps with
  | nil => simp [firstQParam?] at h
  | cons p rest ih =>
    simp only [firstQParam?] at h
    simp only [findQ]
    split at h
    · rename_i hpre
      rw [if_pos hpre]
      obtain rfl := Option.some.injEq .. ▸ h
      cases parseFloat? (pyStrip p |>.drop 2) <;> rfl
    · rename_i hpre
      rw [if_neg hpre]
      exact ih h

/-! ### The sort relation, semantically -/

lemma tokRel_iff (a b : PyFloat × Nat × List Char) :
    tokRel a b ↔
      (b.1.toRat < a.1.toRat ∨ (a.1.toRat = b.1.toRat ∧ a.2.1 ≤ b.2.1)) := by
  simp only [tokRel, tokLe, Bool.or_eq_true, Bool.and_eq_true,
    decide_eq_true_eq, qltKey_iff, qeqKey_iff]

instance : IsTotal (PyFloat × Nat × List Char) tokRel := ⟨by
  intro a b
  rw [tokRel_iff, tokRel_iff]
  rcases lt_trichotomy a.1.toRat b.1.toRat with h | h | h
  · exact Or.inr (Or.inl h)
  · rcases Nat.le_total a.2.1 b.2.1 with hn | hn
    · exact Or.inl (Or.inr ⟨h, hn⟩)
    · exact Or.inr (Or.inr ⟨h.symm, hn⟩)
  · exact Or.inl (Or.inl h)⟩

instance : IsTrans (PyFloat × Nat × List Char) tokRel := ⟨by
  intro a b c hab hbc
  rw [tokRel_iff] at hab hbc ⊢
  rcases hab with h1 | ⟨h1, h1n⟩ <;> rcases hbc with h2 | ⟨h2, h2n⟩
  · exact Or.inl (lt_trans h2 h1)
  · exact Or.inl (h2 ▸ h1)
  · exact Or.inl (h1.symm ▸ h2)
  · exact Or.inr ⟨h1.trans h2, le_trans h1n h2n⟩⟩

lemma mem_sortTokens (x : PyFloat × Nat × List Char)
    (l : List (PyFloat × Nat × List Char)) : x ∈ sortTokens l ↔ x ∈ l :=
  (List.perm_insertionSort tokRel l).mem_iff

/-! ### Scan lemmas -/

lemma scan_eq_zstd (chars : List Char) (g : Bool)
    (l : List (PyFloat × Nat × List Char))
    (h : scanOptions chars g l = .zstd) :
    (∃ q p, (q, p, "zstd".data) ∈ l) ∨
      containsSub "zstd;q=0".data (removeSpaces chars) = false := by
  induction l with
  | nil => simp [scanOptions] at h
  | cons hd tl ih =>
    obtain ⟨q, p, name⟩ := hd
    simp only [scanOptions] at h
    split at h
    · rename_i h1
      subst h1
      exact Or.inl ⟨q, p, List.mem_cons_self _ _⟩
    · split at h
      · split at h
        · exact absurd h (by decide)
        · rcases ih h with ⟨q', p', hm⟩ | hc
          · exact Or.inl ⟨q', p', List.mem_cons_of_mem _ hm⟩
          · exact Or.inr hc
      · split at h
        · exact absurd h (by decide)
        · split at h
          · split at h
            · rename_i h6
              exact Or.inr h6
            · split at h
              · exact absurd h (by decide)
              · exact absurd h (by decide)
          · rcases ih h with ⟨q', p', hm⟩ | hc
            · exact Or.inl ⟨q', p', List.mem_cons_of_mem _ hm⟩
            · exact Or.inr hc

lemma scan_eq_gzip (chars : List Char) (g : Bool)
    (l : List (PyFloat × Nat × List Char))
    (h : scanOptions chars g l = .gzip) :
    g = true ∧
      ((∃ q p, (q, p, "gzip".data) ∈ l) ∨
        containsSub "gzip;q=0".data (removeSpaces chars) = false) := by
  induction l with
  | nil => simp [scanOptions] at h
  | cons hd tl ih =>
    obtain ⟨q, p, name⟩ := hd
    simp only [scanOptions] at h
    split at h
    · exact absurd h (by decide)
    · split at h
      · rename_i h2
        split at h
        · rename_i hg
          subst h2
          exact ⟨hg, Or.inl ⟨q, p, List.mem_cons_self _ _⟩⟩
        · obtain ⟨hg, hrest⟩ := ih h
          refine ⟨hg, ?_⟩
          rcases hrest with ⟨q', p', hm⟩ | hc
          · exact Or.inl ⟨q', p', List.mem_cons_of_mem _ hm⟩
          · exact Or.inr hc
      · split at h
        · exact absurd h (by decide)
        · split at h
          · split at h
            · exact absurd h (by decide)
            · split at h
              · rename_i h7
                exact ⟨h7.1, Or.inr h7.2⟩
              · exact absurd h (by decide)
          · obtain ⟨hg, hrest⟩ := ih h
            refine ⟨hg, ?_⟩
            rcases hrest with ⟨q', p', hm⟩ | hc
            · exact Or.inl ⟨q', p', List.mem_cons_of_mem _ hm⟩
            · exact Or.inr hc

/-- Parts whose q-factor is non-positive yield no token. -/
lemma parse_part_none_of_q_nonpos (part : List Char)
    (h : qle (findQ (paramsOf part)) qZero = true) : parse_part part = none := by
  unfold paramsOf at h
  simp only [parse_part]
  split
  · rfl
  · split
    · rfl
    · rfl

/-- C1: in q-factor-respecting mode, a wildcard token reached at the head
of the sorted scan is resolved purely by substring inspection of the raw
header with spaces removed: `Zstd` unless `zstd;q=0` occurs, else `Gzip`
when the fallback is enabled and `gzip;q=0` does not occur, else
`Identity`.  Consequently `"zstd;q=0, *;q=0.5"` with fallback resolves to
`Gzip`, and `"br;q=1.0, *;q=0.5"` resolves to `Zstd` for every fallback
value. -/
theorem c1_wildcard_substring_resolution :
    (∀ (chars : List Char) (g : Bool) (q : PyFloat) (p : Nat)
        (rest : List (PyFloat × Nat × List Char)),
        scanOptions chars g ((q, p, "*".data) :: rest) =
          (let stripped := removeSpaces chars
           if containsSub "zstd;q=0".data stripped = false then .zstd
           else if g = true ∧ containsSub "gzip;q=0".data stripped = false
             then .gzip
           else .identity))
    ∧ get_preferred_encoding "zstd;q=0, *;q=0.5" true = .gzip
    ∧ (∀ g, get_preferred_encoding "br;q=1.0, *;q=0.5" g = .zstd) := by
  refine ⟨fun chars g q p rest => rfl, by decide, fun g => ?_⟩
  cases g <;> decide

/-- C2 (amended): the negotiator always returns one of `Zstd`, `Gzip`,
`Identity`.  When it returns `Zstd`, either some header part actually
parsed to a `zstd` token — a token whose q-factor the parser did not
reject as `≤ 0`, so it is positive or NaN — or the wildcard path fired
with the space-stripped header not containing the substring `zstd;q=0`;
likewise for `Gzip`, which additionally requires the fallback flag.
(The unamended claim, that any part naming `zstd` with q-factor `0`
keeps the result away from `Zstd`, is refuted by
`c2_forbidden_counterexample`.) -/
theorem c2_result_set_and_forbidden (h : String) (g : Bool) :
    (get_preferred_encoding h g = .zstd ∨ get_preferred_encoding h g = .gzip ∨
      get_preferred_encoding h g = .identity)
    ∧ (get_preferred_encoding h g = .zstd →
        (∃ part ∈ splitOnChar ',' h.data, ∃ q p,
            parse_part part = some (q, p, "zstd".data) ∧ qle q qZero = false)
        ∨ containsSub "zstd;q=0".data (removeSpaces h.data) = false)
    ∧ (get_preferred_encoding h g = .gzip →
        g = true ∧
          ((∃ part ∈ splitOnChar ',' h.data, ∃ q p,
              parse_part part = some (q, p, "gzip".data) ∧ qle q qZero = false)
          ∨ containsSub "gzip;q=0".data (removeSpaces h.data) = false)) := by
  refine ⟨?_, ?_, ?_⟩
  · cases hE : get_preferred_encoding h g with
    | zstd => exact Or.inl rfl
    | gzip => exact Or.inr (Or.inl rfl)
    | identity => exact Or.inr (Or.inr rfl)
  · intro hz
    rcases scan_eq_zstd h.data g (sortTokens (headerOptions h.data)) hz with
      ⟨q, p, hm⟩ | hc
    · rw [mem_sortTokens] at hm
      unfold headerOptions at hm
      obtain ⟨part, hpart, hpp⟩ := List.mem_filterMap.mp hm
      exact Or.inl ⟨part, hpart, q, p, hpp,
        parse_part_q_guard part q p _ hpp⟩
    · exact Or.inr hc
  · intro hz
    obtain ⟨hg, hrest⟩ := scan_eq_gzip h.data g (sortTokens (headerOptions h.data)) hz
    refine ⟨hg, ?_⟩
    rcases hrest with ⟨q, p, hm⟩ | hc
    · rw [mem_sortTokens] at hm
      unfold headerOptions at hm
      obtain ⟨part, hpart, hpp⟩ := List.mem_filterMap.mp hm
      exact Or.inl ⟨part, hpart, q, p, hpp,
        parse_part_q_guard part q p _ hpp⟩
    · exact Or.inr hc

/-- Witness for C2: instantiated at header `"zstd"` with fallback on. -/
theorem c2_result_set_and_forbidden_witness :
    (∃ part ∈ splitOnChar ',' "zstd".data, ∃ q p,
        parse_part part = some (q, p, "zstd".data) ∧ qle q qZero = false)
    ∨ containsSub "zstd;q=0".data (removeSpaces "zstd".data) = false :=
  (c2_result_set_and_forbidden "zstd" true).2.1 (by decide)

/-- Counterexample for C2 as stated: the header `"zstd;a;q=0, *"` contains
a part naming `zstd` with q-factor `0` (so the client explicitly forbade
zstd), yet the negotiator returns `Zstd`: the wildcard resolution checks
only for the literal substring `zstd;q=0`, which the extra parameter `a`
defeats. -/
theorem c2_forbidden_counterexample :
    headerForbids "zstd" "zstd;a;q=0, *" = true
    ∧ get_preferred_encoding "zstd;a;q=0, *" true = .zstd := by
  exact ⟨by decide, by decide⟩

/-- C3: in q-factor-respecting mode the parsed tokens are sorted by
descending q-factor with ties broken by ascending priority rank
(zstd = 0, gzip = 1, identity = 998, * = 999); consequently a header
offering zstd and gzip with equal positive q-factors resolves to `Zstd`
in either order, for every fallback value. -/
theorem c3_sort_descending_q_priority_tie :
    (∀ l, List.Sorted tokRel (sortTokens l))
    ∧ (∀ a b, tokRel a b ↔
        (b.1.toRat < a.1.toRat ∨ (a.1.toRat = b.1.toRat ∧ a.2.1 ≤ b.2.1)))
    ∧ lookupPriority "zstd".data = some 0
    ∧ lookupPriority "gzip".data = some 1
    ∧ lookupPriority "identity".data = some 998
    ∧ lookupPriority "*".data = some 999
    ∧ (∀ g, get_preferred_encoding "zstd;q=0.8, gzip;q=0.8" g = .zstd
        ∧ get_preferred_encoding "gzip;q=0.8, zstd;q=0.8" g = .zstd) := by
  refine ⟨fun l => List.sorted_insertionSort tokRel l, tokRel_iff,
    by decide, by decide, by decide, by decide, fun g => ?_⟩
  cases g <;> exact ⟨by decide, by decide⟩

/-- C4: with the gzip fallback disabled the negotiator never returns
`Gzip` — for every header the result is `Zstd` or `Identity` — and in
particular `"gzip;q=1.0"` and `"zstd;q=0, gzip;q=1.0"` both resolve to
`Identity`. -/
theorem c4_no_gzip_without_fallback :
    (∀ h : String, get_preferred_encoding h false = .zstd ∨
        get_preferred_encoding h false = .identity)
    ∧ get_preferred_encoding "gzip;q=1.0" false = .identity
    ∧ get_preferred_encoding "zstd;q=0, gzip;q=1.0" false = .identity := by
  refine ⟨fun h => ?_, by decide, by decide⟩
  cases hE : get_preferred_encoding h false with
  | zstd => exact Or.inl rfl
  | identity => exact Or.inr rfl
  | gzip => exact absurd (scan_eq_gzip h.data false _ hE).1 (by decide)

/-- Counterexample for C5 as stated: `float("nan")` parses, `nan <= 0`
and `nan > 1.0` are both false, so the part `"zstd;q=nan"` produces a
token whose q-factor is NaN — which does not lie in (0, 1] under Python
comparisons (`0 < nan` and `nan <= 1` are both false). -/
theorem c5_nan_counterexample :
    parse_part "zstd;q=nan".data = some (PyFloat.nan, 0, "zstd".data)
    ∧ qlt qZero PyFloat.nan = false
    ∧ qle PyFloat.nan qOne = false := by
  exact ⟨by decide, by decide, by decide⟩

/-- C5 (amended): every token produced by `parse_part` carries a
q-factor that is either NaN (when the `q=` parameter spells `nan`) or a
finite value in the half-open interval (0, 1]; the q-factor defaults to
`1.0` when no `q=` parameter is present, a parsed value above `1.0`
(infinity included) is clamped to exactly `1.0`, and a non-positive
q-factor yields no token at all. -/
theorem c5_q_factor_nan_or_unit_interval (part : List Char) :
    (∀ q p n, parse_part part = some (q, p, n) →
        q = PyFloat.nan ∨
          ((∃ m k, q = PyFloat.finite m k) ∧ 0 < q.toRat ∧ q.toRat ≤ 1))
    ∧ (firstQParam? (paramsOf part) = none → findQ (paramsOf part) = qOne)
    ∧ (∀ q p n, qlt qOne (findQ (paramsOf part)) = true →
        parse_part part = some (q, p, n) → q = qOne)
    ∧ (qle (findQ (paramsOf part)) qZero = true → parse_part part = none) := by
  refine ⟨fun q p n hp => parse_part_q_cases part q p n hp,
    findQ_of_no_qparam _, fun q p n hq1 hp => ?_,
    parse_part_none_of_q_nonpos part⟩
  unfold paramsOf at hq1
  simp only [parse_part] at hp
  split at hp
  · exact absurd hp (by simp)
  · split at hp
    · exact absurd hp (by simp)
    · split at hp
      · exact absurd hp (by simp)
      · simp only [Option.some.injEq, Prod.mk.injEq] at hp
        exact hp.1.symm

/-- Witness for C5: the part `"gzip;q=0.5"` parses to a token whose
q-factor `0.5` is a finite value in (0, 1]. -/
theorem c5_q_factor_nan_or_unit_interval_witness :
    parse_part "gzip;q=0.5".data = some (PyFloat.finite 5 1, 1, "gzip".data)
    ∧ (PyFloat.finite 5 1 = PyFloat.nan ∨
        ((∃ m k, PyFloat.finite 5 1 = PyFloat.finite m k) ∧
          0 < (PyFloat.finite 5 1).toRat ∧ (PyFloat.finite 5 1).toRat ≤ 1)) :=
  ⟨by decide,
    (c5_q_factor_nan_or_unit_interval "gzip;q=0.5".data).1 (PyFloat.finite 5 1)
      1 "gzip".data (by decide)⟩

/-- C6: a part whose `q=` parameter does not parse as a float is treated
as having `q = 0` and therefore yields no token; parsing is total, so no
exception can surface. -/
theorem c6_malformed_q_silently_dropped (part : List Char) :
    (∀ s, firstQParam? (paramsOf part) = some s → parseFloat? s = none →
        findQ (paramsOf part) = qZero ∧ parse_part part = none)
    ∧ parseFloat? "foo".data = none
    ∧ parse_part "zstd;q=foo".data = none := by
  refine ⟨fun s h1 h2 => ?_, by decide, by decide⟩
  have hfq : findQ (paramsOf part) = qZero := by
    rw [findQ_of_qparam _ _ h1, h2]
    rfl
  exact ⟨hfq, parse_part_none_of_q_nonpos part (by rw [hfq]; decide)⟩

/-- Witness for C6: instantiated at the part `"zstd;q=foo"`. -/
theorem c6_malformed_q_silently_dropped_witness :
    firstQParam? (paramsOf "zstd;q=foo".data) = some "foo".data
    ∧ parseFloat? "foo".data = none
    ∧ (findQ (paramsOf "zstd;q=foo".data) = qZero
        ∧ parse_part "zstd;q=foo".data = none) :=
  ⟨by decide, by decide,
    (c6_malformed_q_silently_dropped "zstd;q=foo".data).1 "foo".data
      (by decide) (by decide)⟩

/-- C7: the empty header resolves to `Identity` for every fallback value,
and more generally any header none of whose parts parses to a token
resolves to `Identity`, without any error. -/
theorem c7_empty_or_unparseable_identity (h : String) (g : Bool) :
    get_preferred_encoding "" g = .identity
    ∧ ((∀ part ∈ splitOnChar ',' h.data, parse_part part = none) →
        get_preferred_encoding h g = .identity) := by
  constructor
  · rfl
  · intro hall
    have hopts : headerOptions h.data = [] := by
      unfold headerOptions
      exact List.filterMap_eq_nil_iff.mpr hall
    unfold get_preferred_encoding
    rw [hopts]
    rfl

/-- Witness for C7: the header `"br;q=1.0, deflate"` parses to no token
and resolves to `Identity`. -/
theorem c7_empty_or_unparseable_identity_witness :
    (∀ part ∈ splitOnChar ',' "br;q=1.0, deflate".data, parse_part part = none)
    ∧ get_preferred_encoding "br;q=1.0, deflate" true = .identity :=
  ⟨by decide, (c7_empty_or_unparseable_identity "br;q=1.0, deflate" true).2
    (by decide)⟩

/-- C8: a part whose coding name is not in `CODING_PRIORITIES` yields no
token, so unsupported codings such as `br` never influence the result; in
particular `"br;q=1.0, zstd;q=0.9, gzip;q=0.8"` resolves to `Zstd` even
though `br` carries the highest q-factor. -/
theorem c8_unsupported_coding_ignored (part : List Char) :
    (lookupPriority (codingNameOf part) = none → parse_part part = none)
    ∧ parse_part "br;q=1.0".data = none
    ∧ get_preferred_encoding "br;q=1.0, zstd;q=0.9, gzip;q=0.8" true = .zstd := by
  refine ⟨fun hl => ?_, by decide, by decide⟩
  unfold codingNameOf at hl
  simp only [parse_part]
  split
  · rfl
  · rw [hl]

/-- Witness for C8: instantiated at the part `"deflate"`. -/
theorem c8_unsupported_coding_ignored_witness :
    lookupPriority (codingNameOf "deflate".data) = none
    ∧ parse_part "deflate".data = none :=
  ⟨by decide, (c8_unsupported_coding_ignored "deflate".data).1 (by decide)⟩

/-- C9: because wildcard resolution looks for the literal substring
`zstd;q=0` in the space-stripped header, a zstd offer with the positive
q-factor `0.5` is mistaken for a ban whenever the wildcard sorts first:
`"zstd;q=0.5, *;q=1.0"` resolves to `Gzip` with the fallback enabled and
to `Identity` without it — never to `Zstd`. -/
theorem c9_wildcard_substring_quirk :
    parse_part "zstd;q=0.5".data = some (PyFloat.finite 5 1, 0, "zstd".data)
    ∧ 0 < (PyFloat.finite 5 1).toRat
    ∧ containsSub "zstd;q=0".data (removeSpaces "zstd;q=0.5, *;q=1.0".data) = true
    ∧ get_preferred_encoding "zstd;q=0.5, *;q=1.0" true = .gzip
    ∧ get_preferred_encoding "zstd;q=0.5, *;q=1.0" false = .identity := by
  refine ⟨by decide, ?_, by decide, by decide, by decide⟩
  norm_num [PyFloat.toRat]

/-- C10: coding-name matching is case-sensitive: uppercase variants such
as `"ZSTD"` or `"Gzip"` produce no token, and a header offering only
`"ZSTD"` resolves to `Identity` for every fallback value. -/
theorem c10_case_sensitive_names :
    parse_part "ZSTD".data = none
    ∧ parse_part "Gzip;q=1.0".data = none
    ∧ (∀ g, get_preferred_encoding "ZSTD" g = .identity) := by
  refine ⟨by decide, by decide, fun g => ?_⟩
  cases g <;> decide
